import Mathlib

/-!
Verification of the command-line argument handling of `MLikelihood/grf`
(`src/utility/ArgumentHandler.cpp`).

The C++ code is shallowly embedded: `ArgumentHandler` is a record of typed
fields, each option case of the `switch` in `processArguments` becomes a
pure handler on that record, `getopt_long` is modelled as a tokenizer that
turns the argument vector into a stream of option events, and the scan loop
is a fold over those events.  Thrown `std::runtime_error`s become a `fail`
result carrying the exception message together with the state of the object
at the moment of the throw (the C++ object outlives the exception, so its
fields at that moment are observable to the caller).

C++ `double` is modelled as `Rat` with an exact decimal reading of
`std::stod` (sign, digits, optional fractional part, longest-prefix,
trailing garbage ignored; exponent/hex/inf/nan spellings and binary
rounding are not modelled — no claim depends on them).  `std::stoi` is
modelled on `Int` (overflow, which `stoi` reports as `std::out_of_range`,
is not modelled — no claim depends on it).
-/

/- The core rational operations are `@[irreducible]`; they are unsealed so
that concrete runs of the embedded scanner evaluate by `decide`/`rfl`. -/
unseal Rat.mul Rat.inv Rat.add Rat.sub

namespace Grf

/-- Tree type enum.  Modelled from the spec: the enum constants
`TREE_QUANTILE` and `TREE_INSTRUMENTAL` come from a header that is not in
`src/`; the spec describes the tree type as "one of a fixed, small closed
set", and the code in `src/` only ever assigns these two variants. -/
inductive TreeType where
  | TREE_QUANTILE
  | TREE_INSTRUMENTAL
deriving DecidableEq, Repr

/-- Modelled from the spec: default number of trees (the `DEFAULT_NUM_TREE`
constant lives in a header not in `src/`; the spec's data-model table gives
the default 500). -/
def DEFAULT_NUM_TREE : Int := 500

/-- Modelled from the spec: platform-dependent default thread count (the
`DEFAULT_NUM_THREADS` constant lives in a header not in `src/`; the spec
calls it "platform default").  Its concrete value is irrelevant to every
claim; the invariant below only compares fields against it. -/
def DEFAULT_NUM_THREADS : Int := 0

/-- The configuration object built by the scanner: the fields of the C++
class `ArgumentHandler`. -/
structure ArgumentHandler where
  caseweights : String
  depvarname : String
  fraction : Rat
  savemem : Bool
  predict : String
  splitweights : String
  nthreads : Int
  file : String
  targetpartitionsize : Int
  mtry : Int
  quantiles : List Rat
  statusvarname : String
  instrumentvarname : String
  ntree : Int
  replace : Bool
  verbose : Bool
  write : Bool
  treetype : TreeType
  seed : Int
  alwayssplitvars : List String
deriving DecidableEq, Repr

/-- The constructor `ArgumentHandler::ArgumentHandler` (lines 37-45):
every field starts at its default. -/
def ArgumentHandler.init : ArgumentHandler :=
  { caseweights := ""
    depvarname := ""
    fraction := 1
    savemem := false
    predict := ""
    splitweights := ""
    nthreads := DEFAULT_NUM_THREADS
    file := ""
    targetpartitionsize := 0
    mtry := 0
    quantiles := []
    statusvarname := ""
    instrumentvarname := ""
    ntree := DEFAULT_NUM_TREE
    replace := true
    verbose := false
    write := false
    treetype := .TREE_QUANTILE
    seed := 0
    alwayssplitvars := [] }

/-- Numeric value of a list of decimal digit characters. -/
def digitsVal (l : List Char) : Nat :=
  l.foldl (fun n c => n * 10 + (c.toNat - '0'.toNat)) 0

/-- Model of `std::stoi` (base 10): skip leading whitespace, optional sign,
then the longest run of digits; `none` models the thrown
`std::invalid_argument` when no digit is found.  Trailing garbage is
ignored, as in C++. -/
def stoi (s : String) : Option Int :=
  let cs := s.toList.dropWhile Char.isWhitespace
  let signed : Int × List Char :=
    match cs with
    | '-' :: t => (-1, t)
    | '+' :: t => (1, t)
    | t => (1, t)
  let ds := signed.2.takeWhile Char.isDigit
  if ds = [] then none
  else some (signed.1 * (digitsVal ds : Int))

/-- Model of `std::stod` on plain decimal spellings: skip leading
whitespace, optional sign, digits, optionally a point and more digits;
at least one digit must appear; trailing garbage is ignored.  `none`
models the thrown `std::invalid_argument`. -/
def stod (s : String) : Option Rat :=
  let cs := s.toList.dropWhile Char.isWhitespace
  let signed : Rat × List Char :=
    match cs with
    | '-' :: t => (-1, t)
    | '+' :: t => (1, t)
    | t => (1, t)
  let intDs := signed.2.takeWhile Char.isDigit
  let rest := signed.2.dropWhile Char.isDigit
  let fracDs : List Char :=
    match rest with
    | '.' :: t => t.takeWhile Char.isDigit
    | _ => []
  if intDs = [] ∧ fracDs = [] then none
  else some (signed.1 * ((digitsVal intDs : Rat) +
    (digitsVal fracDs : Rat) / ((10 : Rat) ^ fracDs.length)))

/-- Comma splitting worker: cuts the character list at every comma. -/
def splitAux : List Char → List Char → List String
  | [], acc => [String.mk acc.reverse]
  | c :: cs, acc =>
    if c = ',' then String.mk acc.reverse :: splitAux cs []
    else splitAux cs (c :: acc)

/-- Modelled from the spec: `splitString` is declared in `utility.h`, whose
implementation is not in `src/`.  The spec describes the affected options
as taking "a comma-delimited list"; we model the splitting with the
`std::getline(stream, token, ',')` reading discipline the call sites
assume: the tokens between commas, where a trailing comma produces no
trailing empty token and the empty string produces no tokens.  The call
sites in `src/` push each token onto the target vector, so repeated calls
accumulate. -/
def splitStr (s : String) : List String :=
  match s.data with
  | [] => []
  | cs =>
    let parts := splitAux cs []
    if cs.getLast? = some ',' then parts.dropLast else parts

/-- Whether `p` is a beginning of `s` (character-list reading of
`String.isPrefixOf`, kept kernel-computable). -/
def strBegins (p s : String) : Bool :=
  p.data.isPrefixOf s.data

/-- Message thrown for a bad `--fraction` value (lines 118-119). -/
def err_fraction : String :=
  "Illegal argument for option 'fraction'. Please give a value in (0,1]. See '--help' for details."

/-- Message thrown for a bad `--nthreads` value (lines 144-145). -/
def err_nthreads : String :=
  "Illegal argument for option 'nthreads'. Please give a positive integer. See '--help' for details."

/-- Message thrown for a bad `--targetpartitionsize` value (lines 172-173). -/
def err_targetpartitionsize : String :=
  "Illegal argument for option 'targetpartitionsize'. Please give a positive integer. See '--help' for details."

/-- Message thrown for a bad `--mtry` value (lines 186-187). -/
def err_mtry : String :=
  "Illegal argument for option 'mtry'. Please give a positive integer. See '--help' for details."

/-- Message thrown for a bad `--ntree` value (lines 221-222). -/
def err_ntree : String :=
  "Illegal argument for option 'ntree'. Please give a positive integer. See '--help' for details."

/-- Message thrown for a bad `--treetype` value (lines 252-253). -/
def err_treetype : String :=
  "Illegal argument for option 'treetype'. Please give a positive integer. See '--help' for details."

/-- Message thrown for a bad `--seed` value (lines 266-267). -/
def err_seed : String :=
  "Illegal argument for option 'seed'. Please give a positive integer. See '--help' for details."

/-- Message thrown for an out-of-range quantile element (line 198). -/
def err_quantiles : String :=
  "All quantiles must lie in the range (0, 1)."

/-- The `what()` of the `std::invalid_argument` that `std::stod` throws on
a malformed quantile element (line 196 has no try/catch, so the library
exception propagates as is; libstdc++ gives it the message "stod"). -/
def err_stod : String := "stod"

/-- Outcome of one `switch` case of the scan loop: continue scanning,
return -1 for help/version, or abort with a thrown message.  The state at
the moment of the throw is kept, because the C++ object outlives the
exception. -/
inductive StepResult where
  | cont (h : ArgumentHandler)
  | exitInfo (ret : Int) (h : ArgumentHandler)
  | fail (msg : String) (h : ArgumentHandler)
deriving DecidableEq, Repr

/-- `case 'F'` (lines 111-121): note the C++ assigns `fraction` before the
range test, so an out-of-range parse leaves the parsed value in the field
when the error is thrown. -/
def handle_F (optarg : String) (h : ArgumentHandler) : StepResult :=
  match stod optarg with
  | none => .fail err_fraction h
  | some v =>
    if v > 1 ∨ v ≤ 0 then .fail err_fraction { h with fraction := v }
    else .cont { h with fraction := v }

/-- `case 'U'` (lines 135-147): `nthreads` is assigned only after the
bound test succeeds. -/
def handle_U (optarg : String) (h : ArgumentHandler) : StepResult :=
  match stoi optarg with
  | none => .fail err_nthreads h
  | some temp =>
    if temp < 1 then .fail err_nthreads h
    else .cont { h with nthreads := temp }

/-- `case 'l'` (lines 163-175). -/
def handle_l (optarg : String) (h : ArgumentHandler) : StepResult :=
  match stoi optarg with
  | none => .fail err_targetpartitionsize h
  | some temp =>
    if temp < 1 then .fail err_targetpartitionsize h
    else .cont { h with targetpartitionsize := temp }

/-- `case 'm'` (lines 177-189). -/
def handle_m (optarg : String) (h : ArgumentHandler) : StepResult :=
  match stoi optarg with
  | none => .fail err_mtry h
  | some temp =>
    if temp < 1 then .fail err_mtry h
    else .cont { h with mtry := temp }

/-- `case 't'` (lines 212-224). -/
def handle_t (optarg : String) (h : ArgumentHandler) : StepResult :=
  match stoi optarg with
  | none => .fail err_ntree h
  | some temp =>
    if temp < 1 then .fail err_ntree h
    else .cont { h with ntree := temp }

/-- `case 'z'` (lines 257-269): seed only has to be non-negative. -/
def handle_z (optarg : String) (h : ArgumentHandler) : StepResult :=
  match stoi optarg with
  | none => .fail err_seed h
  | some temp =>
    if temp < 0 then .fail err_seed h
    else .cont { h with seed := temp }

/-- `case 'y'` (lines 238-255): inner switch on the parsed code; both a
failed conversion and an unknown code land in the catch. -/
def handle_y (optarg : String) (h : ArgumentHandler) : StepResult :=
  match stoi optarg with
  | none => .fail err_treetype h
  | some 11 => .cont { h with treetype := .TREE_QUANTILE }
  | some 15 => .cont { h with treetype := .TREE_INSTRUMENTAL }
  | some _ => .fail err_treetype h

/-- The loop body of `case 'q'` (lines 195-201): each element is converted
by `std::stod` (uncaught on failure), range-checked, and pushed onto
`quantiles` before the next element is examined. -/
def quantilesLoop : List String → ArgumentHandler → StepResult
  | [], h => .cont h
  | a :: rest, h =>
    match stod a with
    | none => .fail err_stod h
    | some quantile =>
      if quantile ≥ 1 ∨ quantile ≤ 0 then .fail err_quantiles h
      else quantilesLoop rest { h with quantiles := h.quantiles ++ [quantile] }

/-- `case 'q'` (lines 191-203). -/
def handle_q (optarg : String) (h : ArgumentHandler) : StepResult :=
  quantilesLoop (splitStr optarg) h

/-- The `switch (c)` of `processArguments` (lines 96-274).  `getopt_long`
guarantees a non-null `optarg` for every required-argument option reached
through a long spelling; for the short spellings `-i` (no-argument in the
short option string) and `-l` (optional-argument) the C++ would read a null
pointer, which is undefined behaviour — modelled as the empty string; no
claim exercises those spellings.  Characters with no case label (`'?'`,
`'H'`, `'M'`, `'X'`, `'a'`, `'b'`, `'c'`, `'o'`, `'p'`, `'r'`) fall into
`default: break` and leave the state unchanged. -/
def applyOpt (c : Char) (optarg : Option String) (h : ArgumentHandler) : StepResult :=
  match c with
  | 'A' => .cont { h with alwayssplitvars := h.alwayssplitvars ++ splitStr (optarg.getD "") }
  | 'C' => .cont { h with caseweights := optarg.getD "" }
  | 'D' => .cont { h with depvarname := optarg.getD "" }
  | 'F' => handle_F (optarg.getD "") h
  | 'N' => .cont { h with savemem := true }
  | 'P' => .cont { h with predict := optarg.getD "" }
  | 'S' => .cont { h with splitweights := optarg.getD "" }
  | 'U' => handle_U (optarg.getD "") h
  | 'Z' => .exitInfo (-1) h
  | 'f' => .cont { h with file := optarg.getD "" }
  | 'h' => .exitInfo (-1) h
  | 'l' => handle_l (optarg.getD "") h
  | 'm' => handle_m (optarg.getD "") h
  | 'q' => handle_q (optarg.getD "") h
  | 's' => .cont { h with statusvarname := optarg.getD "" }
  | 'i' => .cont { h with instrumentvarname := optarg.getD "" }
  | 't' => handle_t (optarg.getD "") h
  | 'u' => .cont { h with replace := false }
  | 'v' => .cont { h with verbose := true }
  | 'w' => .cont { h with write := true }
  | 'y' => handle_y (optarg.getD "") h
  | 'z' => handle_z (optarg.getD "") h
  | _ => .cont h

/-- Argument arity of a short option, read off the short option string
`"A:C:D:F:HM:NP:S:U:XZa:b:c:f:hil::m:o:pr:s:t:uvwy:z:"` (line 53). -/
inductive Arity where
  | noArg
  | requiredArg
  | optionalArg
deriving DecidableEq, Repr

/-- The short option string of line 53, as a table. -/
def short_options : List (Char × Arity) :=
  [ ('A', .requiredArg), ('C', .requiredArg), ('D', .requiredArg),
    ('F', .requiredArg), ('H', .noArg), ('M', .requiredArg),
    ('N', .noArg), ('P', .requiredArg), ('S', .requiredArg),
    ('U', .requiredArg), ('X', .noArg), ('Z', .noArg),
    ('a', .requiredArg), ('b', .requiredArg), ('c', .requiredArg),
    ('f', .requiredArg), ('h', .noArg), ('i', .noArg),
    ('l', .optionalArg), ('m', .requiredArg), ('o', .requiredArg),
    ('p', .noArg), ('r', .requiredArg), ('s', .requiredArg),
    ('t', .requiredArg), ('u', .noArg), ('v', .noArg), ('w', .noArg),
    ('y', .requiredArg), ('z', .requiredArg) ]

/-- The `long_options` table of lines 56-85: long name, whether the option
requires an argument, and the character it is dispatched as. -/
def long_options : List (String × Bool × Char) :=
  [ ("alwayssplitvars", true, 'A'),
    ("caseweights", true, 'C'),
    ("depvarname", true, 'D'),
    ("fraction", true, 'F'),
    ("savemem", false, 'N'),
    ("predict", true, 'P'),
    ("splitweights", true, 'S'),
    ("nthreads", true, 'U'),
    ("predall", false, 'X'),
    ("version", false, 'Z'),
    ("file", true, 'f'),
    ("help", false, 'h'),
    ("targetpartitionsize", true, 'l'),
    ("mtry", true, 'm'),
    ("quantiles", true, 'q'),
    ("splitrule", true, 'r'),
    ("statusvarname", true, 's'),
    ("instrumentvarname", true, 'i'),
    ("ntree", true, 't'),
    ("noreplace", false, 'u'),
    ("verbose", false, 'v'),
    ("write", false, 'w'),
    ("treetype", true, 'y'),
    ("seed", true, 'z') ]

/-- `getopt_long`'s long-option name resolution: an exact match wins;
otherwise a unique long name having the given text as a proper beginning is
taken (GNU abbreviation); zero or several candidates give the unknown
outcome. -/
def lookupLong (name : String) : Option (Bool × Char) :=
  match long_options.find? (fun o => o.1 = name) with
  | some o => some o.2
  | none =>
    match long_options.filter (fun o => strBegins name o.1) with
    | [o] => some o.2
    | _ => none

/-- One occurrence handed back by `getopt_long`: a recognized option with
its argument text, or the `'?'` return for anything unrecognized (unknown
name, ambiguous abbreviation, missing required argument, or an `=value`
given to a no-argument option). -/
inductive GEvent where
  | opt (c : Char) (arg : Option String)
  | unknown
deriving DecidableEq, Repr

/-- `getopt`'s treatment of one short-option cluster `-xyz...`: the
characters after the dash are consumed left to right; a no-argument option
is followed by the rest of the cluster; an argument-taking option takes the
rest of the cluster if non-empty, and a required-argument option otherwise
consumes the next element of the argument vector (`nextTok`).  Returns the
events of the cluster and whether `nextTok` was consumed. -/
def shortCluster : List Char → Option String → (List GEvent × Bool)
  | [], _ => ([], false)
  | ch :: more, nextTok =>
    match (short_options.find? (fun o => o.1 = ch)).map (fun o => o.2) with
    | none =>
      let r := shortCluster more nextTok
      (.unknown :: r.1, r.2)
    | some Arity.noArg =>
      let r := shortCluster more nextTok
      (.opt ch none :: r.1, r.2)
    | some Arity.requiredArg =>
      if more ≠ [] then ([.opt ch (some (String.mk more))], false)
      else
        match nextTok with
        | none => ([.unknown], false)
        | some v => ([.opt ch (some v)], true)
    | some Arity.optionalArg =>
      if more ≠ [] then ([.opt ch (some (String.mk more))], false)
      else ([.opt ch none], false)

/-- `getopt_long`'s treatment of one token (given also the following token
for a detached required argument): the events the token produces, whether
the following token was consumed as an option argument, and whether the
token is a non-option positional argument. -/
def tokEvents (tok : String) (next : Option String) : List GEvent × Bool × Bool :=
  if strBegins "--" tok then
    let body := tok.data.drop 2
    let name := String.mk (body.takeWhile (fun ch => ch != '='))
    let hasEq := body.contains '='
    match lookupLong name with
    | none => ([.unknown], false, false)
    | some (req, c) =>
      if hasEq then
        let valAfter := String.mk ((body.dropWhile (fun ch => ch != '=')).drop 1)
        if req then ([.opt c (some valAfter)], false, false)
        else ([.unknown], false, false)
      else if req then
        match next with
        | none => ([.unknown], false, false)
        | some v => ([.opt c (some v)], true, false)
      else ([.opt c none], false, false)
  else if strBegins "-" tok ∧ tok ≠ "-" then
    let cl := shortCluster (tok.data.drop 1) next
    (cl.1, cl.2, false)
  else ([], false, true)

/-- The `getopt_long` loop of lines 87-94 as a tokenizer over the argument
vector (everything after `argv[0]`): it yields the option events in
left-to-right order together with the non-option arguments, which GNU
`getopt` permutes to the end so that the loop of lines 278-280 can report
them.  A bare `--` stops option recognition. -/
def getoptEvents : List String → (List GEvent × List String)
  | [] => ([], [])
  | tok :: rest =>
    if tok = "--" then ([], rest)
    else
      let a := tokEvents tok rest.head?
      if a.2.2 then
        let r := getoptEvents rest
        (r.1, tok :: r.2)
      else if a.2.1 then
        match rest with
        | [] => (a.1, [])
        | _ :: rest2 =>
          let r := getoptEvents rest2
          (a.1 ++ r.1, r.2)
      else
        let r := getoptEvents rest
        (a.1 ++ r.1, r.2)

/-- The `while (1) { ... switch (c) ... }` loop of lines 87-275 over the
event stream: `'?'` events fall into `default: break`; the first
help/version or thrown error stops the loop. -/
def dispatchEvents : List GEvent → ArgumentHandler → StepResult
  | [], h => .cont h
  | .unknown :: es, h => dispatchEvents es h
  | .opt c a :: es, h =>
    match applyOpt c a h with
    | .cont h2 => dispatchEvents es h2
    | r => r

/-- Result of `ArgumentHandler::processArguments`: the returned int with
the final object state and the reported leftover parameters, or the thrown
message with the object state at the throw. -/
inductive ScanResult where
  | ok (ret : Int) (h : ArgumentHandler) (leftovers : List String)
  | err (msg : String) (h : ArgumentHandler)
deriving DecidableEq, Repr

/-- `ArgumentHandler::processArguments` (lines 50-283) on the argument
vector after `argv[0]`: scan the options, and on normal completion report
the unprocessed parameters (lines 278-280) and return 0.  The early
`return -1` of help/version skips the leftover report. -/
def processArguments (args : List String) (h : ArgumentHandler) : ScanResult :=
  match dispatchEvents (getoptEvents args).1 h with
  | .cont h2 => .ok 0 h2 (getoptEvents args).2
  | .exitInfo r h2 => .ok r h2 []
  | .fail msg h2 => .err msg h2

/-- Message of the first check of `checkArguments` (line 289). -/
def chk_file : String :=
  "Please specify an input filename with '--file'. See '--help' for details."

/-- Message of the second check (line 292). -/
def chk_depvar : String :=
  "Please specify a dependent variable name with '--depvarname'. See '--help' for details."

/-- Message of the third check (lines 296-297); the two adjacent C++ string
literals concatenate without a space. -/
def chk_instrument : String :=
  "When using instrumental trees, the instrument variable must be specified through--instrumentvarname. See '--help' for details."

/-- Message of the fourth check (lines 301-302). -/
def chk_status : String :=
  "When using instrumental trees, the treatment variable must be specified through--statusvarname. See '--help' for details."

/-- Message of the fifth check (line 306). -/
def chk_instrumentOnly : String :=
  "Option '--instrumentvarname' only applicable for instrumental forests. See '--help' for details."

/-- Message of the sixth check (line 310). -/
def chk_exclusive : String :=
  "Please use only one option of splitweights and alwayssplitvars."

/-- `ArgumentHandler::checkArguments` (lines 285-312): `some msg` models
the thrown `std::runtime_error(msg)`, `none` a normal return. -/
def checkArguments (h : ArgumentHandler) : Option String :=
  if h.file = "" then some chk_file
  else if h.predict = "" ∧ h.depvarname = "" then some chk_depvar
  else if h.treetype = .TREE_INSTRUMENTAL ∧ h.instrumentvarname = "" then some chk_instrument
  else if h.treetype = .TREE_INSTRUMENTAL ∧ h.statusvarname = "" then some chk_status
  else if h.treetype = .TREE_INSTRUMENTAL ∧ h.instrumentvarname = "" then some chk_instrumentOnly
  else if h.alwayssplitvars ≠ [] ∧ h.splitweights ≠ "" then some chk_exclusive
  else none

/-- The validation order as the spec states it (section 4.2): five rules,
the fifth being the split-weights/always-split mutual exclusion.  This
definition follows the spec's words, to be compared with `checkArguments`
above, which follows the source. -/
def specValidator (h : ArgumentHandler) : Option String :=
  if h.file = "" then some chk_file
  else if h.predict = "" ∧ h.depvarname = "" then some chk_depvar
  else if h.treetype = .TREE_INSTRUMENTAL ∧ h.instrumentvarname = "" then some chk_instrument
  else if h.treetype = .TREE_INSTRUMENTAL ∧ h.statusvarname = "" then some chk_status
  else if h.alwayssplitvars ≠ [] ∧ h.splitweights ≠ "" then some chk_exclusive
  else none

/-- A quantile list element on which the loop of lines 195-201 aborts:
either `std::stod` rejects it or the parsed value is outside (0,1). -/
def invalidQ (s : String) : Bool :=
  match stod s with
  | none => true
  | some q => decide (q ≥ 1 ∨ q ≤ 0)

/-- The values the quantile loop pushes before reaching the first aborting
element: the parses of the longest aborting-free front of the list. -/
def validVals (l : List String) : List Rat :=
  (l.takeWhile (fun s => !invalidQ s)).filterMap stod

/-- Whether `sub` occurs as a contiguous substring of `msg` (used to state
that an error message does or does not carry an option name). -/
def mentions (msg sub : String) : Bool :=
  (List.range (msg.data.length + 1)).any (fun i => sub.data.isPrefixOf (msg.data.drop i))

/-- The spec's data-model invariant on a configuration: every constrained
field is at its default or satisfies its declared bound — fraction in
(0,1]; ntree ≥ 1; mtry, targetpartitionsize ≥ 1 when set (0 = unset
default); nthreads ≥ 1 when set; seed ≥ 0; every stored quantile strictly
in (0,1); treetype in the closed enum set. -/
def ScanInvariant (h : ArgumentHandler) : Prop :=
  (0 < h.fraction ∧ h.fraction ≤ 1) ∧
  1 ≤ h.ntree ∧
  (h.mtry = 0 ∨ 1 ≤ h.mtry) ∧
  (h.targetpartitionsize = 0 ∨ 1 ≤ h.targetpartitionsize) ∧
  (h.nthreads = DEFAULT_NUM_THREADS ∨ 1 ≤ h.nthreads) ∧
  0 ≤ h.seed ∧
  (∀ q ∈ h.quantiles, 0 < q ∧ q < 1) ∧
  (h.treetype = .TREE_QUANTILE ∨ h.treetype = .TREE_INSTRUMENTAL)

/-- C5: `checkArguments` checks its rules in the fixed order the spec
gives — input file, predict-or-depvar, instrument name for instrumental
trees, status name for instrumental trees, split-weights/always-split
exclusion — and fails with the first violated rule (`specValidator` is
that five-rule order, written from the spec); in particular an
instrumental configuration with input file and dependent variable set but
both instrument and status names empty fails with the rule-3 instrument
error, not the rule-4 status error. -/
theorem checkArguments_order (h : ArgumentHandler) :
    checkArguments h = specValidator h ∧
    (h.treetype = TreeType.TREE_INSTRUMENTAL → h.file ≠ "" → h.depvarname ≠ "" →
      h.instrumentvarname = "" → h.statusvarname = "" →
      checkArguments h = some chk_instrument) := by
  constructor
  · unfold checkArguments specValidator
    split_ifs <;> rfl
  · intro ht hf hd hi hs
    unfold checkArguments
    rw [if_neg hf, if_neg (fun hc => hd hc.2), if_pos ⟨ht, hi⟩]

/-- C5 witness: a concrete instrumental configuration with both variable
names empty fails with the instrument-variable error. -/
theorem checkArguments_order_wit :
    checkArguments
      { ArgumentHandler.init with
          treetype := TreeType.TREE_INSTRUMENTAL
          file := "f.csv"
          depvarname := "y" } = some chk_instrument :=
  (checkArguments_order _).2 rfl (by decide) (by decide) rfl rfl

/-- C10: the fifth check of `checkArguments` (lines 305-307) is
unreachable — its guard is identical to the already-thrown third check's
guard, so the message "Option '--instrumentvarname' only applicable for
instrumental forests" is never produced, for any configuration. -/
theorem fifth_check_unreachable (h : ArgumentHandler) :
    decide (checkArguments h = some chk_instrumentOnly) = false := by
  rw [decide_eq_false_iff_not]
  unfold checkArguments
  split_ifs <;> decide

/-- C7: the tree-type option accepts exactly the codes 11 (Quantile) and
15 (Instrumental); any other parsed integer — including the codes 1 and 3
advertised in the help text — and any unparsable text fail as a malformed
`treetype` value, and such a failure aborts the whole scan. -/
theorem treetype_codes (s : String) (v : Int) (h : ArgumentHandler) :
    (stoi s = some 11 →
      applyOpt 'y' (some s) h = .cont { h with treetype := TreeType.TREE_QUANTILE }) ∧
    (stoi s = some 15 →
      applyOpt 'y' (some s) h = .cont { h with treetype := TreeType.TREE_INSTRUMENTAL }) ∧
    (stoi s = some v → v ≠ 11 → v ≠ 15 →
      applyOpt 'y' (some s) h = .fail err_treetype h) ∧
    (stoi s = none → applyOpt 'y' (some s) h = .fail err_treetype h) ∧
    (stoi s = some v → v ≠ 11 → v ≠ 15 →
      processArguments ["--treetype", s] h = .err err_treetype h) := by
  have hg : getoptEvents ["--treetype", s] = ([GEvent.opt 'y' (some s)], []) := rfl
  refine ⟨?_, ?_, ?_, ?_, ?_⟩
  · intro h1
    show handle_y s h = _
    simp [handle_y, h1]
  · intro h1
    show handle_y s h = _
    simp [handle_y, h1]
  · intro h1 h11 h15
    show handle_y s h = _
    simp [handle_y, h1, h11, h15]
  · intro h1
    show handle_y s h = _
    simp [handle_y, h1]
  · intro h1 h11 h15
    have hy : applyOpt 'y' (some s) h = .fail err_treetype h := by
      show handle_y s h = _
      simp [handle_y, h1, h11, h15]
    simp [processArguments, hg, dispatchEvents, hy]

/-- Folding the scan over an event list decomposes at any point where the
front has run without failure or early exit. -/
theorem dispatch_append (evs : List GEvent) (h h2 : ArgumentHandler) (evs2 : List GEvent)
    (hpre : dispatchEvents evs h = .cont h2) :
    dispatchEvents (evs ++ evs2) h = dispatchEvents evs2 h2 := by
  induction evs generalizing h with
  | nil => cases hpre; rfl
  | cons e es ih =>
    cases e with
    | unknown =>
      rw [dispatchEvents.eq_2] at hpre
      rw [List.cons_append, dispatchEvents.eq_2]
      exact ih h hpre
    | opt c a =>
      rcases hap : applyOpt c a h with h3 | ⟨r, h3⟩ | ⟨m, h3⟩ <;>
        rw [dispatchEvents.eq_3, hap] at hpre
      · rw [List.cons_append, dispatchEvents.eq_3, hap]
        exact ih h3 hpre
      · cases hpre
      · cases hpre

/-- `--help` at the head of the remaining argument vector produces the
help event and leaves the rest to the tokenizer. -/
theorem getopt_help_cons (post : List String) :
    getoptEvents ("--help" :: post) =
      (GEvent.opt 'h' none :: (getoptEvents post).1, (getoptEvents post).2) := by
  have h0 : tokEvents "--help" post.head? = ([GEvent.opt 'h' none], false, false) := rfl
  rw [getoptEvents.eq_2, if_neg (show ¬("--help" = "--") from by decide), h0]
  simp

/-- `--version` at the head of the remaining argument vector produces the
version event and leaves the rest to the tokenizer. -/
theorem getopt_version_cons (post : List String) :
    getoptEvents ("--version" :: post) =
      (GEvent.opt 'Z' none :: (getoptEvents post).1, (getoptEvents post).2) := by
  have h0 : tokEvents "--version" post.head? = ([GEvent.opt 'Z' none], false, false) := rfl
  rw [getoptEvents.eq_2, if_neg (show ¬("--version" = "--") from by decide), h0]
  simp

/-- A long-option token whose name resolves to nothing produces the `'?'`
event and consumes nothing else. -/
theorem getopt_unknown_cons (tok : String) (rest : List String)
    (hpre : strBegins "--" tok = true) (hne : tok ≠ "--")
    (hunk : lookupLong (String.mk ((tok.data.drop 2).takeWhile (fun ch => ch != '='))) = none) :
    getoptEvents (tok :: rest) =
      (GEvent.unknown :: (getoptEvents rest).1, (getoptEvents rest).2) := by
  have h0 : tokEvents tok rest.head? = ([GEvent.unknown], false, false) := by
    unfold tokEvents
    rw [if_pos hpre]
    simp only [hunk]
  rw [getoptEvents.eq_2, if_neg hne, h0]
  simp

/-- C2: help and version short-circuit the scan — everything after them is
left unprocessed and the outcome is the informational -1 return with the
state unchanged from that point — and this holds at any position provided
every earlier option event was processed without failure.  (The
correction: an option that fails before the help/version option is reached
pre-empts the informational exit; see the counterexample.) -/
theorem help_short_circuit (post : List String) (evs : List GEvent)
    (h h2 : ArgumentHandler) (hpre : dispatchEvents evs h = .cont h2) :
    processArguments ("--help" :: post) h = .ok (-1) h [] ∧
    processArguments ("--version" :: post) h = .ok (-1) h [] ∧
    (∀ evs2, dispatchEvents (evs ++ GEvent.opt 'h' none :: evs2) h = .exitInfo (-1) h2) ∧
    (∀ evs2, dispatchEvents (evs ++ GEvent.opt 'Z' none :: evs2) h = .exitInfo (-1) h2) := by
  refine ⟨?_, ?_, ?_, ?_⟩
  · unfold processArguments
    rw [getopt_help_cons]
    rfl
  · unfold processArguments
    rw [getopt_version_cons]
    rfl
  · intro evs2
    rw [dispatch_append evs h h2 _ hpre]
    rfl
  · intro evs2
    rw [dispatch_append evs h h2 _ hpre]
    rfl

/-- C2 witness: `--help` ahead of an invalid option value still gives the
informational exit, with nothing after it processed. -/
theorem help_short_circuit_wit :
    processArguments ["--help", "--fraction", "9"] ArgumentHandler.init =
      .ok (-1) ArgumentHandler.init [] :=
  (help_short_circuit ["--fraction", "9"] [] ArgumentHandler.init ArgumentHandler.init rfl).1

/-- C2 counterexample: with `--fraction 0 --help` the scan throws the
fraction error before ever reaching `--help`, so the outcome is a parse
error, not the informational exit — refuting "regardless of position,
including when the other arguments are invalid". -/
theorem help_after_error_cex :
    processArguments ["--fraction", "0", "--help"] ArgumentHandler.init =
      .err err_fraction { ArgumentHandler.init with fraction := 0 } := by decide

/-- C3: an unrecognized long option spelling does not abort the scan: its
`'?'` return falls into `default: break`, so the scanner continues with
the remaining arguments exactly as if the token were absent.  (The
correction: the claim said such a token fails the scan fatally.) -/
theorem unknown_option_ignored (tok : String) (rest : List String) (h : ArgumentHandler)
    (hpre : strBegins "--" tok = true) (hne : tok ≠ "--")
    (hunk : lookupLong (String.mk ((tok.data.drop 2).takeWhile (fun ch => ch != '='))) = none) :
    processArguments (tok :: rest) h = processArguments rest h := by
  unfold processArguments
  rw [getopt_unknown_cons tok rest hpre hne hunk]
  simp only [dispatchEvents.eq_2]

/-- C3 witness: `--bogus` is skipped and scanning continues with the
remaining arguments. -/
theorem unknown_option_ignored_wit :
    processArguments ["--bogus", "--verbose"] ArgumentHandler.init =
      processArguments ["--verbose"] ArgumentHandler.init :=
  unknown_option_ignored "--bogus" ["--verbose"] ArgumentHandler.init
    (by decide) (by decide) (by decide)

/-- C3 counterexample: an argument vector consisting of one unrecognized
option completes the scan with the success outcome 0 and an unchanged
configuration — the scan neither stops nor fails. -/
theorem unknown_option_cex :
    processArguments ["--bogus"] ArgumentHandler.init = .ok 0 ArgumentHandler.init [] := by
  decide

/-- The quantile loop on a list with an aborting element fails, having
already pushed the parses of every element before the first aborting
one. -/
theorem quantilesLoop_fail_store (l : List String) (h : ArgumentHandler)
    (hb : l.any invalidQ = true) :
    ∃ m, quantilesLoop l h =
      .fail m { h with quantiles := h.quantiles ++ validVals l } := by
  induction l generalizing h with
  | nil => simp at hb
  | cons a rest ih =>
    rcases hq : stod a with _ | q
    · have hinv : invalidQ a = true := by simp [invalidQ, hq]
      have hv : validVals (a :: rest) = [] := by
        simp [validVals, List.takeWhile_cons, hinv]
      refine ⟨err_stod, ?_⟩
      rw [hv]
      simp [quantilesLoop, hq]
    · by_cases hr : q ≥ 1 ∨ q ≤ 0
      · have hinv : invalidQ a = true := by
          simp [invalidQ, hq]
          exact hr
        have hv : validVals (a :: rest) = [] := by
          simp [validVals, List.takeWhile_cons, hinv]
        refine ⟨err_quantiles, ?_⟩
        rw [hv]
        simp [quantilesLoop, hq, hr]
      · have hinv : invalidQ a = false := by
          simp [invalidQ, hq, hr]
        have hb2 : rest.any invalidQ = true := by
          rw [List.any_cons, hinv] at hb
          simpa using hb
        have hv : validVals (a :: rest) = q :: validVals rest := by
          simp [validVals, List.takeWhile_cons, hinv, List.filterMap_cons, hq]
        obtain ⟨m, hm⟩ := ih { h with quantiles := h.quantiles ++ [q] } hb2
        refine ⟨m, ?_⟩
        rw [quantilesLoop.eq_2, hq]
        simp only []
        rw [if_neg hr, hm, hv]
        simp

/-- C1: amended — a quantiles argument containing a malformed or
out-of-range element fails the whole option (the handler aborts the scan
with a thrown message), but the elements before the first bad one HAVE
already been pushed: the quantiles field ends as its previous content
followed by the parses of the longest good front of the list, not
unchanged. -/
theorem quantiles_store_on_failure (arg : String) (h : ArgumentHandler)
    (hb : (splitStr arg).any invalidQ = true) :
    ∃ m, applyOpt 'q' (some arg) h =
      .fail m { h with quantiles := h.quantiles ++ validVals (splitStr arg) } := by
  have he : applyOpt 'q' (some arg) h = quantilesLoop (splitStr arg) h := rfl
  rw [he]
  exact quantilesLoop_fail_store (splitStr arg) h hb

/-- C1 witness: on "0.1,1.0" the handler fails and the stored prefix is
the single parsed value 1/10. -/
theorem quantiles_store_on_failure_wit :
    (splitStr "0.1,1.0").any invalidQ = true ∧
    validVals (splitStr "0.1,1.0") = [(1 : Rat)/10] ∧
    (∃ m, applyOpt 'q' (some "0.1,1.0") ArgumentHandler.init =
      .fail m { ArgumentHandler.init with
                  quantiles := ArgumentHandler.init.quantiles ++ validVals (splitStr "0.1,1.0") }) :=
  ⟨by decide, by decide,
   quantiles_store_on_failure "0.1,1.0" ArgumentHandler.init (by decide)⟩

/-- C1 counterexample: scanning `--quantiles 0.1,1.0` from the freshly
constructed configuration fails the option as claimed, but the quantiles
field ends as [1/10], not as its previous value [] — elements of the list
before the bad one were stored. -/
theorem quantiles_store_cex :
    processArguments ["--quantiles", "0.1,1.0"] ArgumentHandler.init =
      .err err_quantiles { ArgumentHandler.init with quantiles := [(1 : Rat)/10] } ∧
    ArgumentHandler.init.quantiles = [] ∧
    decide (([(1 : Rat)/10] : List Rat) = []) = false :=
  ⟨by decide, rfl, by decide⟩

/-- A failing quantile loop throws either the range message or the raw
`std::stod` conversion error — never a message naming the option. -/
theorem quantilesLoop_fail_msg (l : List String) (h h2 : ArgumentHandler) (m : String)
    (he : quantilesLoop l h = .fail m h2) : m = err_quantiles ∨ m = err_stod := by
  induction l generalizing h with
  | nil =>
    rw [quantilesLoop.eq_1] at he
    cases he
  | cons a rest ih =>
    rw [quantilesLoop.eq_2] at he
    rcases hq : stod a with _ | q <;> rw [hq] at he <;> simp only [] at he
    · cases he
      exact Or.inr rfl
    · by_cases hr : q ≥ 1 ∨ q ≤ 0
      · rw [if_pos hr] at he
        cases he
        exact Or.inl rfl
      · rw [if_neg hr] at he
        exact ih _ he

/-- The treetype handler can only fail with the treetype message. -/
theorem handle_y_fail_msg (s : String) (h h2 : ArgumentHandler) (m : String)
    (he : handle_y s h = .fail m h2) : m = err_treetype := by
  rcases hq : stoi s with _ | v
  · have hy : handle_y s h = .fail err_treetype h := by simp [handle_y, hq]
    rw [hy] at he
    cases he
    rfl
  · by_cases h11 : v = 11
    · subst h11
      have hy : handle_y s h = .cont { h with treetype := .TREE_QUANTILE } := by
        simp [handle_y, hq]
      rw [hy] at he
      cases he
    · by_cases h15 : v = 15
      · subst h15
        have hy : handle_y s h = .cont { h with treetype := .TREE_INSTRUMENTAL } := by
          simp [handle_y, hq]
        rw [hy] at he
        cases he
      · have hy : handle_y s h = .fail err_treetype h := by simp [handle_y, hq, h11, h15]
        rw [hy] at he
        cases he
        rfl

/-- C4: amended — every failure of a scalar required-argument handler
(fraction, nthreads, targetpartitionsize, mtry, ntree, treetype, seed)
throws the uniform "Illegal argument for option X" message naming the
option and its expected form; the quantiles handler is the exception: an
out-of-range element throws its own range message (no uniform format) and
a coercion failure propagates the raw library error "stod", which names
neither the option nor the range. -/
theorem failure_messages (s : String) (h h2 : ArgumentHandler) (m : String) :
    (handle_F s h = .fail m h2 → m = err_fraction) ∧
    (handle_U s h = .fail m h2 → m = err_nthreads) ∧
    (handle_l s h = .fail m h2 → m = err_targetpartitionsize) ∧
    (handle_m s h = .fail m h2 → m = err_mtry) ∧
    (handle_t s h = .fail m h2 → m = err_ntree) ∧
    (handle_y s h = .fail m h2 → m = err_treetype) ∧
    (handle_z s h = .fail m h2 → m = err_seed) ∧
    (handle_q s h = .fail m h2 → m = err_quantiles ∨ m = err_stod) := by
  refine ⟨?_, ?_, ?_, ?_, ?_, ?_, ?_, ?_⟩
  · intro he
    unfold handle_F at he
    rcases hq : stod s with _ | q <;> rw [hq] at he <;> simp only [] at he
    · cases he
      rfl
    · by_cases hb : q > 1 ∨ q ≤ 0
      · rw [if_pos hb] at he
        cases he
        rfl
      · rw [if_neg hb] at he
        cases he
  · intro he
    unfold handle_U at he
    rcases hq : stoi s with _ | v <;> rw [hq] at he <;> simp only [] at he
    · cases he
      rfl
    · by_cases hb : v < 1
      · rw [if_pos hb] at he
        cases he
        rfl
      · rw [if_neg hb] at he
        cases he
  · intro he
    unfold handle_l at he
    rcases hq : stoi s with _ | v <;> rw [hq] at he <;> simp only [] at he
    · cases he
      rfl
    · by_cases hb : v < 1
      · rw [if_pos hb] at he
        cases he
        rfl
      · rw [if_neg hb] at he
        cases he
  · intro he
    unfold handle_m at he
    rcases hq : stoi s with _ | v <;> rw [hq] at he <;> simp only [] at he
    · cases he
      rfl
    · by_cases hb : v < 1
      · rw [if_pos hb] at he
        cases he
        rfl
      · rw [if_neg hb] at he
        cases he
  · intro he
    unfold handle_t at he
    rcases hq : stoi s with _ | v <;> rw [hq] at he <;> simp only [] at he
    · cases he
      rfl
    · by_cases hb : v < 1
      · rw [if_pos hb] at he
        cases he
        rfl
      · rw [if_neg hb] at he
        cases he
  · intro he
    exact handle_y_fail_msg s h h2 m he
  · intro he
    unfold handle_z at he
    rcases hq : stoi s with _ | v <;> rw [hq] at he <;> simp only [] at he
    · cases he
      rfl
    · by_cases hb : v < 0
      · rw [if_pos hb] at he
        cases he
        rfl
      · rw [if_neg hb] at he
        cases he
  · intro he
    exact quantilesLoop_fail_msg (splitStr s) h h2 m he

/-- C4 counterexample: a malformed quantile element makes the scan throw
the bare library message "stod", which does not mention the quantiles
option at all, and an out-of-range quantile throws the range message,
which does not follow the uniform "Illegal argument for option" format
the other options use. -/
theorem quantiles_message_cex :
    processArguments ["--quantiles", "x"] ArgumentHandler.init =
      .err err_stod ArgumentHandler.init ∧
    processArguments ["--quantiles", "2"] ArgumentHandler.init =
      .err err_quantiles ArgumentHandler.init ∧
    mentions err_stod "quantiles" = false ∧
    mentions err_quantiles "Illegal argument for option" = false ∧
    mentions err_fraction "Illegal argument for option 'fraction'" = true :=
  ⟨by decide, by decide, by decide, by decide, by decide⟩

/-- C4 witness: ntree rejects 0 with the uniform ntree message, and the
quantile failure message on a malformed element is the raw "stod". -/
theorem failure_messages_wit :
    handle_t "0" ArgumentHandler.init = .fail err_ntree ArgumentHandler.init ∧
    ("stod" = err_quantiles ∨ "stod" = err_stod) :=
  ⟨by decide,
   (failure_messages "x" ArgumentHandler.init ArgumentHandler.init "stod").2.2.2.2.2.2.2
     (by decide)⟩

/-- C6: amended — for every numeric option an in-bound value is stored
exactly as parsed and an out-of-bound or unparsable value fails with the
malformed-option message naming the option.  The integer options' fields
keep their previous value on failure, but `fraction` is assigned BEFORE
the range test, so on a parsable out-of-range value (e.g. 1.5) the field
holds the offending value when the error is thrown; only on a coercion
failure does `fraction` keep its previous value. -/
theorem numeric_bounds_storage (s : String) (v : Int) (q : Rat) (h : ArgumentHandler) :
    (stoi s = some v → 1 ≤ v → applyOpt 't' (some s) h = .cont { h with ntree := v }) ∧
    (stoi s = some v → v < 1 → applyOpt 't' (some s) h = .fail err_ntree h) ∧
    (stoi s = none → applyOpt 't' (some s) h = .fail err_ntree h) ∧
    (stoi s = some v → 1 ≤ v → applyOpt 'm' (some s) h = .cont { h with mtry := v }) ∧
    (stoi s = some v → v < 1 → applyOpt 'm' (some s) h = .fail err_mtry h) ∧
    (stoi s = none → applyOpt 'm' (some s) h = .fail err_mtry h) ∧
    (stoi s = some v → 1 ≤ v →
      applyOpt 'l' (some s) h = .cont { h with targetpartitionsize := v }) ∧
    (stoi s = some v → v < 1 → applyOpt 'l' (some s) h = .fail err_targetpartitionsize h) ∧
    (stoi s = none → applyOpt 'l' (some s) h = .fail err_targetpartitionsize h) ∧
    (stoi s = some v → 1 ≤ v → applyOpt 'U' (some s) h = .cont { h with nthreads := v }) ∧
    (stoi s = some v → v < 1 → applyOpt 'U' (some s) h = .fail err_nthreads h) ∧
    (stoi s = none → applyOpt 'U' (some s) h = .fail err_nthreads h) ∧
    (stoi s = some v → 0 ≤ v → applyOpt 'z' (some s) h = .cont { h with seed := v }) ∧
    (stoi s = some v → v < 0 → applyOpt 'z' (some s) h = .fail err_seed h) ∧
    (stoi s = none → applyOpt 'z' (some s) h = .fail err_seed h) ∧
    (stod s = some q → 0 < q → q ≤ 1 → applyOpt 'F' (some s) h = .cont { h with fraction := q }) ∧
    (stod s = some q → (q > 1 ∨ q ≤ 0) →
      applyOpt 'F' (some s) h = .fail err_fraction { h with fraction := q }) ∧
    (stod s = none → applyOpt 'F' (some s) h = .fail err_fraction h) := by
  refine ⟨?_, ?_, ?_, ?_, ?_, ?_, ?_, ?_, ?_, ?_, ?_, ?_, ?_, ?_, ?_, ?_, ?_, ?_⟩
  · intro h1 h2
    show handle_t s h = _
    simp [handle_t, h1, show ¬(v < 1) from by omega]
  · intro h1 h2
    show handle_t s h = _
    simp [handle_t, h1, h2]
  · intro h1
    show handle_t s h = _
    simp [handle_t, h1]
  · intro h1 h2
    show handle_m s h = _
    simp [handle_m, h1, show ¬(v < 1) from by omega]
  · intro h1 h2
    show handle_m s h = _
    simp [handle_m, h1, h2]
  · intro h1
    show handle_m s h = _
    simp [handle_m, h1]
  · intro h1 h2
    show handle_l s h = _
    simp [handle_l, h1, show ¬(v < 1) from by omega]
  · intro h1 h2
    show handle_l s h = _
    simp [handle_l, h1, h2]
  · intro h1
    show handle_l s h = _
    simp [handle_l, h1]
  · intro h1 h2
    show handle_U s h = _
    simp [handle_U, h1, show ¬(v < 1) from by omega]
  · intro h1 h2
    show handle_U s h = _
    simp [handle_U, h1, h2]
  · intro h1
    show handle_U s h = _
    simp [handle_U, h1]
  · intro h1 h2
    show handle_z s h = _
    simp [handle_z, h1, show ¬(v < 0) from by omega]
  · intro h1 h2
    show handle_z s h = _
    simp [handle_z, h1, h2]
  · intro h1
    show handle_z s h = _
    simp [handle_z, h1]
  · intro h1 h2 h3
    show handle_F s h = _
    unfold handle_F
    rw [h1]
    simp only []
    rw [if_neg (show ¬(q > 1 ∨ q ≤ 0) from by push_neg; exact ⟨h3, h2⟩)]
  · intro h1 h2
    show handle_F s h = _
    unfold handle_F
    rw [h1]
    simp only []
    rw [if_pos h2]
  · intro h1
    show handle_F s h = _
    simp [handle_F, h1]

/-- C6 counterexample: `--fraction 1.5` fails the scan with the fraction
error, but the fraction field holds the offending value 3/2 when the error
is thrown, not its previous value 1. -/
theorem fraction_overwrite_cex :
    processArguments ["--fraction", "1.5"] ArgumentHandler.init =
      .err err_fraction { ArgumentHandler.init with fraction := (3 : Rat)/2 } ∧
    ArgumentHandler.init.fraction = 1 ∧
    decide (((3 : Rat)/2) = 1) = false :=
  ⟨by decide, rfl, by decide⟩

/-- C6 witness: ntree 20 is stored exactly, ntree 0 fails keeping the
default, and fraction 1.5 fails with the field overwritten. -/
theorem numeric_bounds_storage_wit :
    applyOpt 't' (some "20") ArgumentHandler.init =
      .cont { ArgumentHandler.init with ntree := 20 } ∧
    applyOpt 't' (some "0") ArgumentHandler.init =
      .fail err_ntree ArgumentHandler.init ∧
    applyOpt 'F' (some "1.5") ArgumentHandler.init =
      .fail err_fraction { ArgumentHandler.init with fraction := (3 : Rat)/2 } :=
  ⟨(numeric_bounds_storage "20" 20 0 ArgumentHandler.init).1 (by decide) (by decide),
   (numeric_bounds_storage "0" 0 0 ArgumentHandler.init).2.1 (by decide) (by decide),
   (numeric_bounds_storage "1.5" 0 ((3 : Rat)/2)
      ArgumentHandler.init).2.2.2.2.2.2.2.2.2.2.2.2.2.2.2.2.1 (by decide) (by decide)⟩

/-- C8: amended — a later occurrence of a scalar option silently
overwrites the earlier one (`--ntree 10 --ntree 20` stores 20); the
list-valued options do NOT follow last-wins: both quantiles and
alwayssplitvars append, so repeats accumulate all values in order. -/
theorem repeat_options (s1 s2 : String) (v1 v2 : Int) (q1 q2 : Rat) (h : ArgumentHandler) :
    (stoi s1 = some v1 → 1 ≤ v1 → stoi s2 = some v2 → 1 ≤ v2 →
      processArguments ["--ntree", s1, "--ntree", s2] h = .ok 0 { h with ntree := v2 } []) ∧
    (stod s1 = some q1 → 0 < q1 → q1 < 1 → stod s2 = some q2 → 0 < q2 → q2 < 1 →
      splitStr s1 = [s1] → splitStr s2 = [s2] →
      processArguments ["--quantiles", s1, "--quantiles", s2] h =
        .ok 0 { h with quantiles := h.quantiles ++ [q1, q2] } []) ∧
    processArguments ["--alwayssplitvars", s1, "--alwayssplitvars", s2] h =
      .ok 0 { h with alwayssplitvars := h.alwayssplitvars ++ splitStr s1 ++ splitStr s2 } [] := by
  refine ⟨?_, ?_, ?_⟩
  · intro h1 hb1 h2 hb2
    have hg : getoptEvents ["--ntree", s1, "--ntree", s2] =
        ([GEvent.opt 't' (some s1), GEvent.opt 't' (some s2)], []) := rfl
    have e1 : applyOpt 't' (some s1) h = .cont { h with ntree := v1 } := by
      show handle_t s1 h = _
      simp [handle_t, h1, show ¬(v1 < 1) from by omega]
    have e2 : applyOpt 't' (some s2) { h with ntree := v1 } = .cont { h with ntree := v2 } := by
      show handle_t s2 _ = _
      simp [handle_t, h2, show ¬(v2 < 1) from by omega]
    unfold processArguments
    rw [hg]
    simp only [dispatchEvents.eq_3, dispatchEvents.eq_1, e1, e2]
  · intro h1 ha1 hb1 h2 ha2 hb2 hs1 hs2
    have hg : getoptEvents ["--quantiles", s1, "--quantiles", s2] =
        ([GEvent.opt 'q' (some s1), GEvent.opt 'q' (some s2)], []) := rfl
    have e1 : applyOpt 'q' (some s1) h = .cont { h with quantiles := h.quantiles ++ [q1] } := by
      show handle_q s1 h = _
      unfold handle_q
      rw [hs1, quantilesLoop.eq_2, h1]
      simp only []
      rw [if_neg (show ¬(q1 ≥ 1 ∨ q1 ≤ 0) from by push_neg; exact ⟨hb1, ha1⟩)]
      rw [quantilesLoop.eq_1]
    have e2 : applyOpt 'q' (some s2) { h with quantiles := h.quantiles ++ [q1] } =
        .cont { h with quantiles := h.quantiles ++ [q1] ++ [q2] } := by
      show handle_q s2 _ = _
      unfold handle_q
      rw [hs2, quantilesLoop.eq_2, h2]
      simp only []
      rw [if_neg (show ¬(q2 ≥ 1 ∨ q2 ≤ 0) from by push_neg; exact ⟨hb2, ha2⟩)]
      rw [quantilesLoop.eq_1]
    unfold processArguments
    rw [hg]
    simp only [dispatchEvents.eq_3, dispatchEvents.eq_1, e1, e2]
    simp [List.append_assoc]
  · have hg : getoptEvents ["--alwayssplitvars", s1, "--alwayssplitvars", s2] =
        ([GEvent.opt 'A' (some s1), GEvent.opt 'A' (some s2)], []) := rfl
    have e1 : applyOpt 'A' (some s1) h =
        .cont { h with alwayssplitvars := h.alwayssplitvars ++ splitStr s1 } := rfl
    have e2 : applyOpt 'A' (some s2)
          { h with alwayssplitvars := h.alwayssplitvars ++ splitStr s1 } =
        .cont { h with alwayssplitvars := h.alwayssplitvars ++ splitStr s1 ++ splitStr s2 } := rfl
    unfold processArguments
    rw [hg]
    simp only [dispatchEvents.eq_3, dispatchEvents.eq_1, e1, e2]

/-- C8 counterexample: repeating the quantiles option accumulates both
values — the stored sequence is [1/4, 3/4], not the last occurrence's
[3/4]. -/
theorem repeat_quantiles_cex :
    processArguments ["--quantiles", "0.25", "--quantiles", "0.75"] ArgumentHandler.init =
      .ok 0 { ArgumentHandler.init with quantiles := [(1 : Rat)/4, (3 : Rat)/4] } [] ∧
    decide (([(1 : Rat)/4, (3 : Rat)/4] : List Rat) = [(3 : Rat)/4]) = false :=
  ⟨by decide, by decide⟩

/-- C8 witness: for the scalar option ntree the later occurrence wins. -/
theorem repeat_options_wit :
    processArguments ["--ntree", "10", "--ntree", "20"] ArgumentHandler.init =
      .ok 0 { ArgumentHandler.init with ntree := 20 } [] :=
  (repeat_options "10" "20" 10 20 0 0 ArgumentHandler.init).1
    (by decide) (by decide) (by decide) (by decide)

/-- C7 witness: code 11 selects Quantile, and the help-text code 1 is
rejected with the treetype error. -/
theorem treetype_codes_wit :
    applyOpt 'y' (some "11") ArgumentHandler.init =
      .cont { ArgumentHandler.init with treetype := TreeType.TREE_QUANTILE } ∧
    processArguments ["--treetype", "1"] ArgumentHandler.init =
      .err err_treetype ArgumentHandler.init :=
  ⟨(treetype_codes "11" 0 ArgumentHandler.init).1 (by decide),
   (treetype_codes "1" 1 ArgumentHandler.init).2.2.2.2 (by decide) (by decide) (by decide)⟩


/-- The ntree case continues only having stored a parsed value of at least 1. -/
theorem handle_t_cont (s : String) (h h2 : ArgumentHandler) (he : handle_t s h = .cont h2) :
    ∃ v, stoi s = some v ∧ 1 ≤ v ∧ h2 = { h with ntree := v } := by
  unfold handle_t at he
  rcases hq : stoi s with _ | v <;> rw [hq] at he <;> simp only [] at he
  · cases he
  · by_cases hb : v < 1
    · rw [if_pos hb] at he
      cases he
    · rw [if_neg hb] at he
      cases he
      exact ⟨v, rfl, by omega, rfl⟩

/-- The mtry case continues only having stored a parsed value of at least 1. -/
theorem handle_m_cont (s : String) (h h2 : ArgumentHandler) (he : handle_m s h = .cont h2) :
    ∃ v, stoi s = some v ∧ 1 ≤ v ∧ h2 = { h with mtry := v } := by
  unfold handle_m at he
  rcases hq : stoi s with _ | v <;> rw [hq] at he <;> simp only [] at he
  · cases he
  · by_cases hb : v < 1
    · rw [if_pos hb] at he
      cases he
    · rw [if_neg hb] at he
      cases he
      exact ⟨v, rfl, by omega, rfl⟩

/-- The targetpartitionsize case continues only having stored a parsed value of at least 1. -/
theorem handle_l_cont (s : String) (h h2 : ArgumentHandler) (he : handle_l s h = .cont h2) :
    ∃ v, stoi s = some v ∧ 1 ≤ v ∧ h2 = { h with targetpartitionsize := v } := by
  unfold handle_l at he
  rcases hq : stoi s with _ | v <;> rw [hq] at he <;> simp only [] at he
  · cases he
  · by_cases hb : v < 1
    · rw [if_pos hb] at he
      cases he
    · rw [if_neg hb] at he
      cases he
      exact ⟨v, rfl, by omega, rfl⟩

/-- The nthreads case continues only having stored a parsed value of at least 1. -/
theorem handle_U_cont (s : String) (h h2 : ArgumentHandler) (he : handle_U s h = .cont h2) :
    ∃ v, stoi s = some v ∧ 1 ≤ v ∧ h2 = { h with nthreads := v } := by
  unfold handle_U at he
  rcases hq : stoi s with _ | v <;> rw [hq] at he <;> simp only [] at he
  · cases he
  · by_cases hb : v < 1
    · rw [if_pos hb] at he
      cases he
    · rw [if_neg hb] at he
      cases he
      exact ⟨v, rfl, by omega, rfl⟩

/-- The seed case continues only having stored a non-negative parsed value. -/
theorem handle_z_cont (s : String) (h h2 : ArgumentHandler) (he : handle_z s h = .cont h2) :
    ∃ v, stoi s = some v ∧ 0 ≤ v ∧ h2 = { h with seed := v } := by
  unfold handle_z at he
  rcases hq : stoi s with _ | v <;> rw [hq] at he <;> simp only [] at he
  · cases he
  · by_cases hb : v < 0
    · rw [if_pos hb] at he
      cases he
    · rw [if_neg hb] at he
      cases he
      exact ⟨v, rfl, by omega, rfl⟩

/-- The fraction case continues only having stored a parsed value in (0,1]. -/
theorem handle_F_cont (s : String) (h h2 : ArgumentHandler) (he : handle_F s h = .cont h2) :
    ∃ q, stod s = some q ∧ 0 < q ∧ q ≤ 1 ∧ h2 = { h with fraction := q } := by
  unfold handle_F at he
  rcases hq : stod s with _ | q <;> rw [hq] at he <;> simp only [] at he
  · cases he
  · by_cases hb : q > 1 ∨ q ≤ 0
    · rw [if_pos hb] at he
      cases he
    · rw [if_neg hb] at he
      cases he
      have h1 : ¬(q > 1) := fun hx => hb (Or.inl hx)
      have h2 : ¬(q ≤ 0) := fun hx => hb (Or.inr hx)
      exact ⟨q, rfl, not_le.mp h2, not_lt.mp h1, rfl⟩

/-- The treetype case continues only with one of the two enum variants stored. -/
theorem handle_y_cont (s : String) (h h2 : ArgumentHandler) (he : handle_y s h = .cont h2) :
    h2 = { h with treetype := .TREE_QUANTILE } ∨
    h2 = { h with treetype := .TREE_INSTRUMENTAL } := by
  rcases hq : stoi s with _ | v
  · have hy : handle_y s h = .fail err_treetype h := by simp [handle_y, hq]
    rw [hy] at he
    cases he
  · by_cases h11 : v = 11
    · subst h11
      have hy : handle_y s h = .cont { h with treetype := .TREE_QUANTILE } := by
        simp [handle_y, hq]
      rw [hy] at he
      cases he
      exact Or.inl rfl
    · by_cases h15 : v = 15
      · subst h15
        have hy : handle_y s h = .cont { h with treetype := .TREE_INSTRUMENTAL } := by
          simp [handle_y, hq]
        rw [hy] at he
        cases he
        exact Or.inr rfl
      · have hy : handle_y s h = .fail err_treetype h := by simp [handle_y, hq, h11, h15]
        rw [hy] at he
        cases he

/-- A completed quantile loop has appended only values strictly inside (0,1). -/
theorem quantilesLoop_cont (l : List String) (h h2 : ArgumentHandler)
    (he : quantilesLoop l h = .cont h2) :
    ∃ qs, h2 = { h with quantiles := h.quantiles ++ qs } ∧ ∀ x ∈ qs, 0 < x ∧ x < 1 := by
  induction l generalizing h with
  | nil =>
    rw [quantilesLoop.eq_1] at he
    cases he
    exact ⟨[], by simp, by simp⟩
  | cons a rest ih =>
    rw [quantilesLoop.eq_2] at he
    rcases hq : stod a with _ | q <;> rw [hq] at he <;> simp only [] at he
    · cases he
    · by_cases hr : q ≥ 1 ∨ q ≤ 0
      · rw [if_pos hr] at he
        cases he
      · rw [if_neg hr] at he
        obtain ⟨qs, hq2, hall⟩ := ih _ he
        push_neg at hr
        refine ⟨q :: qs, ?_, ?_⟩
        · rw [hq2]
          simp
        · intro x hx
          rcases List.mem_cons.mp hx with hx | hx
          · subst hx
            exact ⟨hr.2, hr.1⟩
          · exact hall x hx

/-- Every switch case that continues the scan preserves the data-model invariant. -/
theorem applyOpt_cont_inv (c : Char) (a : Option String) (h h2 : ArgumentHandler)
    (he : applyOpt c a h = .cont h2) (hi : ScanInvariant h) : ScanInvariant h2 := by
  unfold applyOpt at he
  split at he
  · cases he
    simpa [ScanInvariant] using hi
  · cases he
    simpa [ScanInvariant] using hi
  · cases he
    simpa [ScanInvariant] using hi
  · obtain ⟨q, _, hq0, hq1, rfl⟩ := handle_F_cont _ _ _ he
    simp only [ScanInvariant] at hi ⊢
    simp_all
  · cases he
    simpa [ScanInvariant] using hi
  · cases he
    simpa [ScanInvariant] using hi
  · cases he
    simpa [ScanInvariant] using hi
  · obtain ⟨v, _, hv, rfl⟩ := handle_U_cont _ _ _ he
    simp only [ScanInvariant] at hi ⊢
    simp_all
  · cases he
  · cases he
    simpa [ScanInvariant] using hi
  · cases he
  · obtain ⟨v, _, hv, rfl⟩ := handle_l_cont _ _ _ he
    simp only [ScanInvariant] at hi ⊢
    simp_all
  · obtain ⟨v, _, hv, rfl⟩ := handle_m_cont _ _ _ he
    simp only [ScanInvariant] at hi ⊢
    simp_all
  · obtain ⟨qs, rfl, hall⟩ := quantilesLoop_cont _ _ _ he
    simp only [ScanInvariant] at hi ⊢
    refine ⟨hi.1, hi.2.1, hi.2.2.1, hi.2.2.2.1, hi.2.2.2.2.1, hi.2.2.2.2.2.1, ?_, hi.2.2.2.2.2.2.2⟩
    intro x hx
    simp only [List.mem_append] at hx
    rcases hx with hx | hx
    · exact hi.2.2.2.2.2.2.1 x hx
    · exact hall x hx
  · cases he
    simpa [ScanInvariant] using hi
  · cases he
    simpa [ScanInvariant] using hi
  · obtain ⟨v, _, hv, rfl⟩ := handle_t_cont _ _ _ he
    simp only [ScanInvariant] at hi ⊢
    simp_all
  · cases he
    simpa [ScanInvariant] using hi
  · cases he
    simpa [ScanInvariant] using hi
  · cases he
    simpa [ScanInvariant] using hi
  · rcases handle_y_cont _ _ _ he with rfl | rfl <;>
      · simp only [ScanInvariant] at hi ⊢
        simp_all
  · obtain ⟨v, _, hv, rfl⟩ := handle_z_cont _ _ _ he
    simp only [ScanInvariant] at hi ⊢
    simp_all
  · cases he
    simpa [ScanInvariant] using hi


/-- The quantile loop never produces the help/version early exit. -/
theorem quantilesLoop_no_exit (l : List String) (h h2 : ArgumentHandler) (r : Int)
    (he : quantilesLoop l h = .exitInfo r h2) : False := by
  induction l generalizing h with
  | nil =>
    rw [quantilesLoop.eq_1] at he
    cases he
  | cons a rest ih =>
    rw [quantilesLoop.eq_2] at he
    rcases hq : stod a with _ | q <;> rw [hq] at he <;> simp only [] at he
    · cases he
    · by_cases hr : q ≥ 1 ∨ q ≤ 0
      · rw [if_pos hr] at he
        cases he
      · rw [if_neg hr] at he
        exact ih _ he

/-- The only early exits of the switch are help and version, both returning -1
with the state untouched. -/
theorem applyOpt_exit (c : Char) (a : Option String) (h h2 : ArgumentHandler) (r : Int)
    (he : applyOpt c a h = .exitInfo r h2) : r = -1 := by
  unfold applyOpt at he
  split at he
  · cases he
  · cases he
  · cases he
  · exact absurd he (by
      rcases hq : stod (a.getD "") with _ | q
      · simp [handle_F, hq]
      · by_cases hb : q > 1 ∨ q ≤ 0 <;> simp [handle_F, hq, hb])
  · cases he
  · cases he
  · cases he
  · exact absurd he (by
      rcases hq : stoi (a.getD "") with _ | v
      · simp [handle_U, hq]
      · by_cases hb : v < 1 <;> simp [handle_U, hq, hb])
  · cases he
    rfl
  · cases he
  · cases he
    rfl
  · exact absurd he (by
      rcases hq : stoi (a.getD "") with _ | v
      · simp [handle_l, hq]
      · by_cases hb : v < 1 <;> simp [handle_l, hq, hb])
  · exact absurd he (by
      rcases hq : stoi (a.getD "") with _ | v
      · simp [handle_m, hq]
      · by_cases hb : v < 1 <;> simp [handle_m, hq, hb])
  · exact absurd he (quantilesLoop_no_exit (splitStr (a.getD "")) h h2 r)
  · cases he
  · cases he
  · exact absurd he (by
      rcases hq : stoi (a.getD "") with _ | v
      · simp [handle_t, hq]
      · by_cases hb : v < 1 <;> simp [handle_t, hq, hb])
  · cases he
  · cases he
  · cases he
  · exact absurd he (by
      rcases hq : stoi (a.getD "") with _ | v
      · simp [handle_y, hq]
      · by_cases h11 : v = 11
        · subst h11
          simp [handle_y, hq]
        · by_cases h15 : v = 15
          · subst h15
            simp [handle_y, hq]
          · simp [handle_y, hq, h11, h15])
  · exact absurd he (by
      rcases hq : stoi (a.getD "") with _ | v
      · simp [handle_z, hq]
      · by_cases hb : v < 0 <;> simp [handle_z, hq, hb])
  · cases he

/-- A scan loop that runs to completion preserves the data-model invariant. -/
theorem dispatchEvents_cont_inv (es : List GEvent) (h h2 : ArgumentHandler)
    (he : dispatchEvents es h = .cont h2) (hi : ScanInvariant h) : ScanInvariant h2 := by
  induction es generalizing h with
  | nil =>
    rw [dispatchEvents.eq_1] at he
    cases he
    exact hi
  | cons e es ih =>
    cases e with
    | unknown =>
      rw [dispatchEvents.eq_2] at he
      exact ih _ he hi
    | opt c a =>
      rw [dispatchEvents.eq_3] at he
      rcases hap : applyOpt c a h with h3 | ⟨r, h3⟩ | ⟨m, h3⟩ <;>
        rw [hap] at he <;> simp only [] at he
      · exact ih _ he (applyOpt_cont_inv c a h h3 hap hi)
      · cases he
      · cases he

/-- A scan loop that stops early can only carry the return value -1. -/
theorem dispatchEvents_exit_ret (es : List GEvent) (h h2 : ArgumentHandler) (r : Int)
    (he : dispatchEvents es h = .exitInfo r h2) : r = -1 := by
  induction es generalizing h with
  | nil =>
    rw [dispatchEvents.eq_1] at he
    cases he
  | cons e es ih =>
    cases e with
    | unknown =>
      rw [dispatchEvents.eq_2] at he
      exact ih _ he
    | opt c a =>
      rw [dispatchEvents.eq_3] at he
      rcases hap : applyOpt c a h with h3 | ⟨r2, h3⟩ | ⟨m, h3⟩ <;>
        rw [hap] at he <;> simp only [] at he
      · exact ih _ he
      · cases he
        exact applyOpt_exit c a h _ _ hap
      · cases he

/-- C9: on every argument vector on which `processArguments` completes
normally (returns 0 from the freshly constructed configuration), the final
configuration satisfies the data-model invariant: fraction in (0,1];
ntree ≥ 1; mtry and targetpartitionsize 0 (auto) or ≥ 1; nthreads at its
default or ≥ 1; seed ≥ 0; every stored quantile strictly in (0,1); and the
tree type one of the closed enum set — no field is left partially parsed
or type-invalid. -/
theorem scan_invariant_holds (args : List String) (h2 : ArgumentHandler) (lft : List String)
    (he : processArguments args ArgumentHandler.init = .ok 0 h2 lft) : ScanInvariant h2 := by
  have hinit : ScanInvariant ArgumentHandler.init := by
    unfold ScanInvariant
    decide
  unfold processArguments at he
  rcases hd : dispatchEvents (getoptEvents args).1 ArgumentHandler.init with
      h3 | ⟨r, h3⟩ | ⟨m, h3⟩ <;>
    rw [hd] at he <;> simp only [] at he
  · cases he
    exact dispatchEvents_cont_inv _ _ _ hd hinit
  · have hr := dispatchEvents_exit_ret _ _ _ _ hd
    injection he with e1 e2 e3
    rw [hr] at e1
    exact absurd e1 (by decide)
  · cases he

/-- C9 witness: a concrete successful scan satisfies the invariant. -/
theorem scan_invariant_holds_wit :
    ScanInvariant { ArgumentHandler.init with file := "in.csv" } :=
  scan_invariant_holds ["--file", "in.csv"] { ArgumentHandler.init with file := "in.csv" } []
    (by decide)


end Grf
